import Mathlib

/-!
Verification development for the exchange-rate scraper
(`src/scraper.py`, `src/webdriver_utils.py`).

The Python functions are shallowly embedded as Lean functions:

* DOM interaction is abstracted into page values: a snapshot page either
  raises an exception during navigation/waiting or yields a list of rate
  rows; a historical page either raises or yields a list of rows, each a
  list of cell texts.
* Python exceptions are modelled by an `Except` monad over an exception
  type `PyExc`; each `except` handler of the source is a branch of the
  boundary handler functions.
* Python `float` values are modelled as exact rationals (`ℚ`): the
  claims under study concern which entries appear, never IEEE-754
  rounding, so the decimal-literal value is the faithful abstraction.
* Python `dict` is modelled as an association list with CPython update
  semantics: assigning to an existing key replaces its value in place,
  assigning a new key appends it at the end.
-/

namespace CurrencyScraper

/-- Whitespace characters removed by Python `str.strip()` (ASCII subset;
the source strings involved contain none beyond these). -/
def isPySpace (c : Char) : Bool :=
  c == ' ' || c == '\t' || c == '\n' || c == '\r' ||
    c == Char.ofNat 11 || c == Char.ofNat 12

/-- Model of Python `str.strip()`: drop leading and trailing whitespace. -/
def pyStrip (s : String) : String :=
  ⟨((s.data.dropWhile isPySpace).reverse.dropWhile isPySpace).reverse⟩

/-- Numeric value of a digit string. -/
def digitsVal (ds : List Char) : ℕ :=
  ds.foldl (fun a c => a * 10 + (c.toNat - 48)) 0

/-- Split a character list into its leading run of decimal digits and the rest. -/
def spanDigits : List Char → List Char × List Char
  | [] => ([], [])
  | c :: cs =>
    if c.isDigit then
      let p := spanDigits cs
      (c :: p.1, p.2)
    else ([], c :: cs)

/-- Parse the exponent suffix (after `e`/`E`) of a Python float literal:
an optional sign followed by at least one digit, consuming the rest. -/
def parseExpSuffix (cs : List Char) : Option ℤ :=
  let p : ℤ × List Char :=
    match cs with
    | '+' :: r => (1, r)
    | '-' :: r => (-1, r)
    | _ => (1, cs)
  let d := spanDigits p.2
  if d.1.isEmpty then none
  else if d.2.isEmpty then some (p.1 * (digitsVal d.1 : ℤ))
  else none

/-- Parse the unsigned mantissa of a Python float literal:
`digits [. digits] | . digits`, returning its value and the remaining input. -/
def parseMantissa (cs : List Char) : Option (ℚ × List Char) :=
  let ip := spanDigits cs
  match ip.2 with
  | '.' :: r2 =>
    let fp := spanDigits r2
    if ip.1.isEmpty && fp.1.isEmpty then none
    else some ((digitsVal ip.1 : ℚ) + (digitsVal fp.1 : ℚ) / ((10 : ℚ) ^ fp.1.length), fp.2)
  | _ => if ip.1.isEmpty then none else some ((digitsVal ip.1 : ℚ), ip.2)

/-- Model of Python `float(str)` on plain decimal and exponent literals,
returning an exact rational (`none` models `ValueError`). The `inf`/`nan`
and underscore-separator forms accepted by CPython are outside the inputs
this development reasons about. -/
def pyFloat (s : String) : Option ℚ :=
  let cs := (pyStrip s).data
  let sp : ℚ × List Char :=
    match cs with
    | '+' :: r => (1, r)
    | '-' :: r => (-1, r)
    | _ => (1, cs)
  match parseMantissa sp.2 with
  | none => none
  | some mr =>
    match mr.2 with
    | [] => some (sp.1 * mr.1)
    | 'e' :: r => (parseExpSuffix r).map (fun e => sp.1 * mr.1 * (10 : ℚ) ^ e)
    | 'E' :: r => (parseExpSuffix r).map (fun e => sp.1 * mr.1 * (10 : ℚ) ^ e)
    | _ => none

/-- The Python exceptions that can arise inside the extraction functions,
matching the `except` clauses of `src/scraper.py`. -/
inductive PyExc where
  | timeoutExc
  | noSuchElementExc
  | webDriverExc
  | typeErrorExc
  | otherExc
  deriving DecidableEq, Repr

/-- One `.rate-row` element of the snapshot table.
`currency = none` models a missing `.currency-code` child element
(`NoSuchElementException` on lookup). `rateCell = none` models a missing
`.rate-value` child element; `rateCell = some none` models a present
`.rate-value` element whose `data-rate-value` attribute is absent
(`get_attribute` returns Python `None`); `rateCell = some (some s)`
models an attribute with string value `s`. -/
structure RateRow where
  currency : Option String
  rateCell : Option (Option String)
  deriving DecidableEq, Repr

/-- Outcome of navigating to the snapshot page and waiting for the rate
table: either some exception is raised before row enumeration (timeout,
driver error, ...), or the `#rate-list-body .rate-row` elements are found. -/
inductive SnapshotPage where
  | raised (e : PyExc)
  | rows (rs : List RateRow)
  deriving DecidableEq, Repr

/-- Association list holding a Python `dict` from strings to rates. -/
abbrev RateDict := List (String × ℚ)

/-- Python `dict` lookup on the association-list model. -/
def dictLookup (d : RateDict) (k : String) : Option ℚ :=
  match d with
  | [] => none
  | (k', v) :: t => if k' = k then some v else dictLookup t k

/-- CPython `d[k] = v`: replace in place if `k` is present, append otherwise. -/
def dictInsert (d : RateDict) (k : String) (v : ℚ) : RateDict :=
  match d with
  | [] => [(k, v)]
  | (k', v') :: t => if k' = k then (k', v) :: t else (k', v') :: dictInsert t k v

/-- Body of the per-row loop of `fetch_exchange_rates` (lines 57-67).
Missing child elements raise `NoSuchElementException` and an unparseable
attribute string raises `ValueError`; both are caught by the inner
`except` and the row is skipped. A present `.rate-value` element with no
`data-rate-value` attribute makes `float(None)` raise `TypeError`, which
the inner `except (NoSuchElementException, ValueError)` does not catch. -/
def processRow (acc : RateDict) (r : RateRow) : Except PyExc RateDict :=
  match r.currency with
  | none => Except.ok acc
  | some code =>
    match r.rateCell with
    | none => Except.ok acc
    | some none => Except.error PyExc.typeErrorExc
    | some (some s) =>
      match pyFloat s with
      | none => Except.ok acc
      | some q => Except.ok (dictInsert acc code q)

/-- The row loop of `fetch_exchange_rates`, propagating uncaught exceptions. -/
def processRows : RateDict → List RateRow → Except PyExc RateDict
  | acc, [] => Except.ok acc
  | acc, r :: rs =>
    match processRow acc r with
    | Except.ok a => processRows a rs
    | Except.error e => Except.error e

/-- The `try` block of `fetch_exchange_rates` (lines 27-74): `ok none`
models `return None` inside the `try` (no rows found, or no row parsed),
`ok (some m)` models returning the accumulated dict, `error e` models an
exception escaping the `try` block. -/
def fetch_exchange_rates_body (p : SnapshotPage) : Except PyExc (Option RateDict) :=
  match p with
  | SnapshotPage.raised e => Except.error e
  | SnapshotPage.rows rs =>
    if rs = [] then Except.ok none
    else
      match processRows [] rs with
      | Except.error e => Except.error e
      | Except.ok m => Except.ok (if m = [] then none else some m)

/-- The `except` handlers of `fetch_exchange_rates` (lines 76-99): the
`TimeoutException`, `NoSuchElementException` and `WebDriverException`
handlers each return `None`, and the final catch-all `except Exception`
returns `None` for everything else (in particular `TypeError`). -/
def snapshotExcHandler (e : PyExc) : Option RateDict :=
  match e with
  | PyExc.timeoutExc => none
  | PyExc.noSuchElementExc => none
  | PyExc.webDriverExc => none
  | PyExc.typeErrorExc => none
  | PyExc.otherExc => none

/-- `fetch_exchange_rates` of `src/scraper.py`: the `try` body with every
escaping exception mapped through the `except` handlers. -/
def fetch_exchange_rates (p : SnapshotPage) : Option RateDict :=
  match fetch_exchange_rates_body p with
  | Except.ok r => r
  | Except.error e => snapshotExcHandler e

/-- Outcome of navigating to the historical page and waiting for the
table: either an exception, or the `table tr` rows, each given by the
stripped-to-be text contents of its `td` cells. -/
inductive HistPage where
  | raised (e : PyExc)
  | rows (rs : List (List String))
  deriving DecidableEq, Repr

/-- Body of the per-row loop of `fetch_historical_rates` (lines 145-162):
rows with fewer than two `td` cells are passed over, a rate text that
fails `float` conversion is skipped, otherwise the stripped date and rate
are inserted into the dict. -/
def histStep (acc : RateDict) (cells : List String) : RateDict :=
  match cells with
  | c0 :: c1 :: _ =>
    match pyFloat (pyStrip c1) with
    | some q => dictInsert acc (pyStrip c0) q
    | none => acc
  | _ => acc

/-- The `try` block of `fetch_historical_rates` (lines 114-169): fewer than
two rows (header only or empty) returns `None`; otherwise the first row is
dropped as the header and the remaining rows are folded into the dict;
an empty dict returns `None`. -/
def fetch_historical_rates_body (p : HistPage) : Except PyExc (Option RateDict) :=
  match p with
  | HistPage.raised e => Except.error e
  | HistPage.rows rs =>
    if rs.length ≤ 1 then Except.ok none
    else
      let m := (rs.drop 1).foldl histStep []
      Except.ok (if m = [] then none else some m)

/-- The `except` handlers of `fetch_historical_rates` (lines 171-185):
each of the four handlers returns `None`. -/
def histExcHandler (e : PyExc) : Option RateDict :=
  match e with
  | PyExc.timeoutExc => none
  | PyExc.noSuchElementExc => none
  | PyExc.webDriverExc => none
  | PyExc.typeErrorExc => none
  | PyExc.otherExc => none

/-- `fetch_historical_rates` of `src/scraper.py`. The `currency_code`
parameter is accepted (with the source's signature) and, as in the
source, never read by the body. -/
def fetch_historical_rates (p : HistPage) (currency_code : String) : Option RateDict :=
  match fetch_historical_rates_body p with
  | Except.ok r => r
  | Except.error e => histExcHandler e

/-- The entry a snapshot row contributes when it parses: its currency-code
text paired with the parsed `data-rate-value`, and `none` when the row is
skipped or aborts. -/
def rowEntry (r : RateRow) : Option (String × ℚ) :=
  match r.currency, r.rateCell with
  | some c, some (some s) =>
    match pyFloat s with
    | some q => some (c, q)
    | none => none
  | _, _ => none

/-- Whether a row takes the `TypeError` path: its `.rate-value` element is
present but the `data-rate-value` attribute is absent, so `float(None)`
raises an exception the per-row handler does not catch. -/
def rowAborts (r : RateRow) : Bool :=
  match r.currency, r.rateCell with
  | some _, some none => true
  | _, _ => false

/-- The effect of one non-aborting row on the accumulated dict. -/
def snapStep (acc : RateDict) (r : RateRow) : RateDict :=
  match rowEntry r with
  | some p => dictInsert acc p.1 p.2
  | none => acc

/-- One step of scanning rows for the final rate recorded against code `c`. -/
def lastStep (c : String) (o : Option ℚ) (r : RateRow) : Option ℚ :=
  match rowEntry r with
  | some p => if p.1 = c then some p.2 else o
  | none => o

/-- The rate of the last row in `rs` that parses with currency code `c`
(`none` if no parsing row carries `c`). -/
def lastEntryRate (rs : List RateRow) (c : String) : Option ℚ :=
  List.foldl (lastStep c) none rs

/-- State of the process with respect to the browser session:
`cacheSlot` is the `@st.cache_resource` slot for `setup_driver`
(`none` while no call has completed; `some r` once a call returned `r`,
where `r` itself is the `Optional[webdriver.Chrome]` return value), and
`attempts` counts how many `webdriver.Chrome(...)` launches were
performed. Driver handles are modelled as natural numbers. -/
structure SessionState where
  cacheSlot : Option (Option ℕ)
  attempts : ℕ
  deriving DecidableEq, Repr

/-- `setup_driver` of `src/webdriver_utils.py` under its
`@st.cache_resource` decorator. Per Streamlit's documented semantics the
decorator caches whatever value the function returns — including `None` —
and only re-runs the body on a cache miss; exceptions are not cached, but
the body's catch-all `except Exception` turns every launch failure into a
returned `None`. `env i` gives the outcome of the `i`-th launch attempt
(`some h` a driver handle, `none` a raised exception caught by the body). -/
def setup_driver (env : ℕ → Option ℕ) (s : SessionState) : Option ℕ × SessionState :=
  match s.cacheSlot with
  | some r => (r, s)
  | none =>
    let r := env s.attempts
    (r, ⟨some r, s.attempts + 1⟩)

/-! ### Helper lemmas about the dict model -/

theorem dictInsert_ne_nil (d : RateDict) (k : String) (v : ℚ) : dictInsert d k v ≠ [] := by
  cases d with
  | nil => simp [dictInsert]
  | cons p t =>
    obtain ⟨a, b⟩ := p
    simp only [dictInsert]
    split <;> simp

theorem dictLookup_insert (d : RateDict) (k k' : String) (v : ℚ) :
    dictLookup (dictInsert d k v) k' = if k = k' then some v else dictLookup d k' := by
  induction d with
  | nil => simp [dictInsert, dictLookup]
  | cons p t ih =>
    obtain ⟨a, b⟩ := p
    by_cases hak : a = k
    · subst hak
      simp only [dictInsert, if_pos rfl, dictLookup]
      by_cases h : a = k' <;> simp [dictLookup, h]
    · simp only [dictInsert, if_neg hak, dictLookup, ih]
      split_ifs <;> simp_all

theorem dictLookup_append (d e : RateDict) (k : String) :
    dictLookup (d ++ e) k =
      match dictLookup d k with
      | some v => some v
      | none => dictLookup e k := by
  induction d with
  | nil => rfl
  | cons p t ih =>
    obtain ⟨a, b⟩ := p
    by_cases h : a = k <;> simp [dictLookup, h, ih]

theorem dictInsert_fresh (d : RateDict) (k : String) (v : ℚ)
    (h : dictLookup d k = none) : dictInsert d k v = d ++ [(k, v)] := by
  induction d with
  | nil => rfl
  | cons p t ih =>
    obtain ⟨a, b⟩ := p
    simp only [dictLookup] at h
    by_cases hak : a = k
    · simp [hak] at h
    · simp only [dictInsert, if_neg hak, List.cons_append, List.cons.injEq, true_and]
      exact ih (by simpa [hak] using h)

theorem mem_dictInsert (d : RateDict) (k : String) (v : ℚ) (p : String × ℚ)
    (h : p ∈ dictInsert d k v) : p ∈ d ∨ p = (k, v) := by
  induction d with
  | nil => right; simpa [dictInsert] using h
  | cons q t ih =>
    obtain ⟨a, b⟩ := q
    simp only [dictInsert] at h
    by_cases hak : a = k
    · rw [if_pos hak] at h
      rcases List.mem_cons.mp h with h1 | h1
      · right; rw [h1, hak]
      · left; exact List.mem_cons_of_mem _ h1
    · rw [if_neg hak] at h
      rcases List.mem_cons.mp h with h1 | h1
      · left; simp [h1]
      · rcases ih h1 with h2 | h2
        · left; exact List.mem_cons_of_mem _ h2
        · right; exact h2

/-! ### Helper lemmas about the snapshot row loop -/

theorem processRow_no_abort (acc : RateDict) (r : RateRow) (h : rowAborts r = false) :
    processRow acc r = Except.ok (snapStep acc r) := by
  obtain ⟨cur, cell⟩ := r
  cases cur with
  | none => rfl
  | some c =>
    cases cell with
    | none => rfl
    | some att =>
      cases att with
      | none => simp [rowAborts] at h
      | some s =>
        simp only [processRow, snapStep, rowEntry]
        cases pyFloat s <;> rfl

theorem processRow_ok (acc a : RateDict) (r : RateRow)
    (h : processRow acc r = Except.ok a) : a = snapStep acc r := by
  obtain ⟨cur, cell⟩ := r
  cases cur with
  | none =>
    simp only [processRow] at h
    injection h with h1
    rw [← h1]; rfl
  | some c =>
    cases cell with
    | none =>
      simp only [processRow] at h
      injection h with h1
      rw [← h1]; rfl
    | some att =>
      cases att with
      | none => simp only [processRow] at h; cases h
      | some s =>
        simp only [processRow] at h
        simp only [snapStep, rowEntry]
        cases hpf : pyFloat s <;> rw [hpf] at h <;> injection h with h1 <;> rw [← h1]

theorem processRows_no_abort (rs : List RateRow) :
    ∀ acc, (∀ r ∈ rs, rowAborts r = false) →
      processRows acc rs = Except.ok (List.foldl snapStep acc rs) := by
  induction rs with
  | nil => intro acc _; rfl
  | cons r t ih =>
    intro acc h
    have hr := processRow_no_abort acc r (h r (by simp))
    simp only [processRows, hr, List.foldl_cons]
    exact ih (snapStep acc r) (fun x hx => h x (by simp [hx]))

theorem fetch_rows_no_abort (rs : List RateRow) (h : ∀ r ∈ rs, rowAborts r = false) :
    fetch_exchange_rates (SnapshotPage.rows rs) =
      if List.foldl snapStep [] rs = [] then none
      else some (List.foldl snapStep [] rs) := by
  cases rs with
  | nil => rfl
  | cons r t =>
    have hne : (r :: t : List RateRow) ≠ [] := List.cons_ne_nil r t
    simp only [fetch_exchange_rates, fetch_exchange_rates_body, if_neg hne,
      processRows_no_abort (r :: t) [] h]

theorem foldl_snapStep_length (rs : List RateRow) :
    ((rs.filterMap rowEntry).map Prod.fst).Nodup →
    ∀ acc, (∀ p ∈ rs.filterMap rowEntry, dictLookup acc p.1 = none) →
      (List.foldl snapStep acc rs).length = acc.length + (rs.filterMap rowEntry).length := by
  induction rs with
  | nil => intro _ acc _; simp
  | cons r t ih =>
    intro hnd acc hfresh
    rw [List.foldl_cons]
    cases hre : rowEntry r with
    | none =>
      have hstep : snapStep acc r = acc := by simp [snapStep, hre]
      rw [hstep, List.filterMap_cons_none hre]
      rw [List.filterMap_cons_none hre] at hnd hfresh
      exact ih hnd acc hfresh
    | some p =>
      obtain ⟨c, q⟩ := p
      have hstep : snapStep acc r = dictInsert acc c q := by simp [snapStep, hre]
      rw [hstep]
      rw [List.filterMap_cons_some hre] at hnd hfresh ⊢
      have hfc : dictLookup acc c = none := hfresh (c, q) (by simp)
      rw [dictInsert_fresh acc c q hfc]
      rw [List.map_cons, List.nodup_cons] at hnd
      have hlen := ih hnd.2 (acc ++ [(c, q)]) ?_
      · rw [hlen]
        simp
        omega
      · intro p hp
        rw [dictLookup_append, hfresh p (List.mem_cons_of_mem _ hp)]
        have hcp : ¬ c = p.1 := by
          intro hh
          apply hnd.1
          have hmem := List.mem_map_of_mem Prod.fst hp
          rw [← hh] at hmem
          exact hmem
        simp [dictLookup, hcp]

theorem foldl_snapStep_ne_nil_of_ne_nil (rs : List RateRow) :
    ∀ acc, acc ≠ [] → List.foldl snapStep acc rs ≠ [] := by
  induction rs with
  | nil => intro acc h; simpa using h
  | cons r t ih =>
    intro acc h
    rw [List.foldl_cons]
    apply ih
    cases hre : rowEntry r with
    | none => simpa [snapStep, hre] using h
    | some p =>
      simp only [snapStep, hre]
      exact dictInsert_ne_nil _ _ _

theorem foldl_snapStep_ne_nil (rs : List RateRow) :
    ∀ acc r0, r0 ∈ rs → (rowEntry r0).isSome = true →
      List.foldl snapStep acc rs ≠ [] := by
  induction rs with
  | nil => intro acc r0 h0 _; cases h0
  | cons r t ih =>
    intro acc r0 h0 hv
    rw [List.foldl_cons]
    rcases List.mem_cons.mp h0 with h1 | h1
    · subst h1
      apply foldl_snapStep_ne_nil_of_ne_nil
      obtain ⟨p, hp⟩ := Option.isSome_iff_exists.mp hv
      simp only [snapStep, hp]
      exact dictInsert_ne_nil _ _ _
    · exact ih (snapStep acc r) r0 h1 hv

theorem mem_foldl_snapStep (rs : List RateRow) :
    ∀ acc p, p ∈ List.foldl snapStep acc rs →
      p ∈ acc ∨ ∃ r ∈ rs, rowEntry r = some p := by
  induction rs with
  | nil => intro acc p h; exact Or.inl (by simpa using h)
  | cons r t ih =>
    intro acc p h
    rw [List.foldl_cons] at h
    rcases ih (snapStep acc r) p h with h1 | h1
    · cases hre : rowEntry r with
      | none =>
        rw [snapStep, hre] at h1
        exact Or.inl h1
      | some q =>
        obtain ⟨c, qv⟩ := q
        rw [snapStep, hre] at h1
        rcases mem_dictInsert _ _ _ _ h1 with h2 | h2
        · exact Or.inl h2
        · exact Or.inr ⟨r, by simp, by rw [hre, h2]⟩
    · obtain ⟨r', hr', he⟩ := h1
      exact Or.inr ⟨r', by simp [hr'], he⟩

theorem processRows_lookup (rs : List RateRow) :
    ∀ acc m, processRows acc rs = Except.ok m → ∀ c,
      dictLookup m c = List.foldl (lastStep c) (dictLookup acc c) rs := by
  induction rs with
  | nil =>
    intro acc m h c
    injection h with h1
    rw [← h1]
    rfl
  | cons r t ih =>
    intro acc m h c
    rw [List.foldl_cons]
    simp only [processRows] at h
    cases hpr : processRow acc r with
    | error e => rw [hpr] at h; cases h
    | ok a =>
      rw [hpr] at h
      have ha := processRow_ok acc a r hpr
      rw [ih a m h c, ha]
      congr 1
      cases hre : rowEntry r with
      | none => simp [snapStep, lastStep, hre]
      | some p =>
        obtain ⟨k, v⟩ := p
        simp [snapStep, lastStep, hre, dictLookup_insert]

theorem processRows_all_invalid (rs : List RateRow) :
    ∀ acc, (∀ r ∈ rs, rowEntry r = none) →
      processRows acc rs = Except.ok acc ∨ ∃ e, processRows acc rs = Except.error e := by
  induction rs with
  | nil => intro acc _; exact Or.inl rfl
  | cons r t ih =>
    intro acc h
    simp only [processRows]
    cases hpr : processRow acc r with
    | error e => exact Or.inr ⟨e, rfl⟩
    | ok a =>
      have ha : a = acc := by
        rw [processRow_ok acc a r hpr]
        simp [snapStep, h r (by simp)]
      rw [ha]
      exact ih acc (fun x hx => h x (by simp [hx]))

theorem fetch_exchange_rates_ne_some_nil (p : SnapshotPage) :
    fetch_exchange_rates p ≠ some [] := by
  cases p with
  | raised e =>
    cases e <;> simp [fetch_exchange_rates, fetch_exchange_rates_body, snapshotExcHandler]
  | rows rs =>
    cases rs with
    | nil => simp [fetch_exchange_rates, fetch_exchange_rates_body]
    | cons r t =>
      have hne : (r :: t : List RateRow) ≠ [] := List.cons_ne_nil r t
      simp only [fetch_exchange_rates, fetch_exchange_rates_body, if_neg hne]
      cases hpr : processRows [] (r :: t) with
      | error e => cases e <;> simp [snapshotExcHandler]
      | ok m => by_cases hm : m = [] <;> simp [hm]

/-! ### Claim theorems -/

/-- Claim C1, counterexample. The claim asserts that a snapshot page with
`N` valid and `M` malformed rows always yields exactly `N` entries. Two
concrete pages refute it: a page with two valid rows sharing the currency
code "USD" yields one entry, not two; and a page with one valid row plus
one row whose `.rate-value` element lacks its `data-rate-value` attribute
returns `None` (the whole call aborts with `TypeError`), not a one-entry
snapshot. -/
theorem fetch_exchange_rates_exact_count_counterexample :
    (fetch_exchange_rates (SnapshotPage.rows
        [⟨some "USD", some (some "1.0")⟩, ⟨some "USD", some (some "2.0")⟩])).map List.length
      = some 1 ∧
    (([⟨some "USD", some (some "1.0")⟩, ⟨some "USD", some (some "2.0")⟩] :
        List RateRow).filterMap rowEntry).length = 2 ∧
    fetch_exchange_rates (SnapshotPage.rows
        [⟨some "USD", some (some "1.0")⟩, ⟨some "EUR", some none⟩]) = none ∧
    (([⟨some "USD", some (some "1.0")⟩, ⟨some "EUR", some none⟩] :
        List RateRow).filterMap rowEntry).length = 1 := by
  decide

/-- Claim C1, amended: for a snapshot page whose rows never take the
`TypeError` path (no present `.rate-value` element with a missing
attribute) and whose valid rows have pairwise-distinct currency codes,
`fetch_exchange_rates` returns a snapshot with exactly `N` entries, where
`N ≥ 1` is the number of valid rows; malformed rows are silently dropped. -/
theorem fetch_exchange_rates_valid_row_count (rs : List RateRow)
    (hna : ∀ r ∈ rs, rowAborts r = false)
    (hnd : ((rs.filterMap rowEntry).map Prod.fst).Nodup)
    (hN : 1 ≤ (rs.filterMap rowEntry).length) :
    ∃ m, fetch_exchange_rates (SnapshotPage.rows rs) = some m ∧
      m.length = (rs.filterMap rowEntry).length := by
  have hlen := foldl_snapStep_length rs hnd [] (fun p _ => rfl)
  have hne : List.foldl snapStep [] rs ≠ [] := by
    intro h0
    rw [h0] at hlen
    simp at hlen
    omega
  refine ⟨List.foldl snapStep [] rs, ?_, ?_⟩
  · rw [fetch_rows_no_abort rs hna, if_neg hne]
  · rw [hlen]
    simp

/-- Claim C1, witness: a page with two valid rows with distinct codes and
no aborting row yields a two-entry snapshot. -/
theorem fetch_exchange_rates_valid_row_count_witness :
    ∃ m, fetch_exchange_rates (SnapshotPage.rows
        [⟨some "USD", some (some "1.0")⟩, ⟨some "EUR", some (some "2.0")⟩]) = some m ∧
      m.length = (([⟨some "USD", some (some "1.0")⟩, ⟨some "EUR", some (some "2.0")⟩] :
        List RateRow).filterMap rowEntry).length :=
  fetch_exchange_rates_valid_row_count
    [⟨some "USD", some (some "1.0")⟩, ⟨some "EUR", some (some "2.0")⟩]
    (by decide) (by decide) (by decide)

/-- Claim C2, counterexample. The claim asserts that a row whose rate
value cannot be extracted is skipped individually and the call still
succeeds when another row parses. A page whose first row parses ("AUD")
and whose second row has a `.rate-value` element without the
`data-rate-value` attribute returns `None`: `float(None)` raises
`TypeError`, which the per-row handler `except (NoSuchElementException,
ValueError)` does not catch, so the whole call fails. -/
theorem fetch_exchange_rates_row_abort_counterexample :
    fetch_exchange_rates (SnapshotPage.rows
        [⟨some "AUD", some (some "3.5")⟩, ⟨some "NZD", some none⟩]) = none ∧
    (rowEntry ⟨some "AUD", some (some "3.5")⟩).isSome = true := by
  decide

/-- Claim C2, amended: rows whose currency-code element or rate-value
element is missing, or whose rate attribute fails to parse as a float,
are skipped individually, and the call succeeds as long as at least one
row parses — provided no row takes the `TypeError` path (a present
`.rate-value` element with a missing `data-rate-value` attribute), which
instead aborts the whole call. Every entry of the result comes from a
row that parsed. -/
theorem fetch_exchange_rates_partial_success (rs : List RateRow)
    (hna : ∀ r ∈ rs, rowAborts r = false)
    (r0 : RateRow) (h0 : r0 ∈ rs) (hv : (rowEntry r0).isSome = true) :
    ∃ m, fetch_exchange_rates (SnapshotPage.rows rs) = some m ∧
      ∀ p ∈ m, ∃ r ∈ rs, rowEntry r = some p := by
  have hne := foldl_snapStep_ne_nil rs [] r0 h0 hv
  refine ⟨List.foldl snapStep [] rs, ?_, ?_⟩
  · rw [fetch_rows_no_abort rs hna, if_neg hne]
  · intro p hp
    rcases mem_foldl_snapStep rs [] p hp with h1 | h1
    · cases h1
    · exact h1

/-- Claim C2, witness: a page with one row missing its currency-code
element and one parsing row still succeeds, with every entry coming from
a parsed row. -/
theorem fetch_exchange_rates_partial_success_witness :
    ∃ m, fetch_exchange_rates (SnapshotPage.rows
        [⟨none, some (some "9.9")⟩, ⟨some "CHF", some (some "0.9")⟩]) = some m ∧
      ∀ p ∈ m, ∃ r ∈ [(⟨none, some (some "9.9")⟩ : RateRow), ⟨some "CHF", some (some "0.9")⟩],
        rowEntry r = some p :=
  fetch_exchange_rates_partial_success
    [⟨none, some (some "9.9")⟩, ⟨some "CHF", some (some "0.9")⟩]
    (by decide) ⟨some "CHF", some (some "0.9")⟩ (by decide) (by decide)

/-- Claim C3, counterexample. The claim asserts that when zero entries
are parsed, the returned failure carries a kind distinguishing the
zero-rows case from the all-rows-invalid case. The source returns the
bare `None` in both cases: the two failure results are the identical
value, carrying no kind. -/
theorem fetch_exchange_rates_failure_kinds_counterexample :
    fetch_exchange_rates (SnapshotPage.rows []) =
      fetch_exchange_rates (SnapshotPage.rows [⟨some "SEK", some (some "x")⟩]) ∧
    fetch_exchange_rates (SnapshotPage.rows []) = none := by
  decide

/-- Claim C3, amended: whenever a snapshot extraction yields zero parsed
entries — the table has zero rows, or rows are present and every one
fails to parse — `fetch_exchange_rates` returns the failure value `None`;
the two cases are distinguished only in log output, not in the returned
value. -/
theorem fetch_exchange_rates_zero_parsed_none (rs : List RateRow)
    (h : ∀ r ∈ rs, rowEntry r = none) :
    fetch_exchange_rates (SnapshotPage.rows rs) = none := by
  cases rs with
  | nil => rfl
  | cons r t =>
    have hne : (r :: t : List RateRow) ≠ [] := List.cons_ne_nil r t
    rcases processRows_all_invalid (r :: t) [] h with h1 | ⟨e, h1⟩
    · simp [fetch_exchange_rates, fetch_exchange_rates_body, hne, h1]
    · cases e <;> simp [fetch_exchange_rates, fetch_exchange_rates_body, hne, h1,
        snapshotExcHandler]

/-- Claim C3, witness: a page whose rows are all unparseable returns `None`. -/
theorem fetch_exchange_rates_zero_parsed_none_witness :
    fetch_exchange_rates (SnapshotPage.rows
      [⟨some "JPY", some (some "abc")⟩, ⟨some "KRW", none⟩]) = none :=
  fetch_exchange_rates_zero_parsed_none
    [⟨some "JPY", some (some "abc")⟩, ⟨some "KRW", none⟩] (by decide)

/-- Claim C4: every exception raised inside the `try` block of either
extractor is mapped to the returned failure value `None` by the `except`
handlers — no exception escapes the extraction boundary — and the
page-level no-rows failures likewise return `None` (the snapshot page
with zero rows; the historical page with at most a header row). -/
theorem extraction_failures_return_values :
    (∀ (p : SnapshotPage) (e : PyExc),
        fetch_exchange_rates_body p = Except.error e → fetch_exchange_rates p = none) ∧
    (∀ (q : HistPage) (c : String) (e : PyExc),
        fetch_historical_rates_body q = Except.error e → fetch_historical_rates q c = none) ∧
    fetch_exchange_rates (SnapshotPage.rows []) = none ∧
    (∀ (rs : List (List String)) (c : String), rs.length ≤ 1 →
        fetch_historical_rates (HistPage.rows rs) c = none) := by
  refine ⟨?_, ?_, rfl, ?_⟩
  · intro p e h
    unfold fetch_exchange_rates
    rw [h]
    cases e <;> rfl
  · intro q c e h
    unfold fetch_historical_rates
    rw [h]
    cases e <;> rfl
  · intro rs c h
    simp only [fetch_historical_rates, fetch_historical_rates_body, if_pos h]

/-- Claim C4, witness: a timed-out snapshot page, a historical page hit
by a driver error, and a header-only historical table all return `None`. -/
theorem extraction_failures_return_values_witness :
    fetch_exchange_rates (SnapshotPage.raised PyExc.timeoutExc) = none ∧
    fetch_historical_rates (HistPage.raised PyExc.webDriverExc) "USD" = none ∧
    fetch_historical_rates (HistPage.rows [["Date", "Rate"]]) "USD" = none :=
  ⟨extraction_failures_return_values.1 (SnapshotPage.raised PyExc.timeoutExc)
      PyExc.timeoutExc rfl,
   extraction_failures_return_values.2.1 (HistPage.raised PyExc.webDriverExc) "USD"
      PyExc.webDriverExc rfl,
   extraction_failures_return_values.2.2.2 [["Date", "Rate"]] "USD" (by decide)⟩

set_option maxRecDepth 4000 in
/-- Claim C5: on the historical table with a header row followed by the
data rows ("2024-01-01","150.5"), ("2024-01-02","bad"), ("2024-01-03",
"151.2"), `fetch_historical_rates` returns exactly the mapping
2024-01-01 ↦ 150.5, 2024-01-03 ↦ 151.2: the header row is discarded and
the row with the unparseable rate is dropped. -/
theorem fetch_historical_rates_example_table :
    fetch_historical_rates (HistPage.rows
      [["Date", "Rate"], ["2024-01-01", "150.5"], ["2024-01-02", "bad"],
       ["2024-01-03", "151.2"]]) "USD"
      = some [("2024-01-01", 301 / 2), ("2024-01-03", 756 / 5)] := by
  with_unfolding_all decide

set_option maxRecDepth 4000 in
/-- Claim C6, counterexample. The claim asserts every rate in a
successful snapshot is strictly positive. The source performs no
positivity check: a page whose single row carries the attribute "0"
succeeds with the rate 0, and 0 is not greater than 0. -/
theorem fetch_exchange_rates_nonpositive_rate_counterexample :
    fetch_exchange_rates (SnapshotPage.rows [⟨some "ZWL", some (some "0")⟩])
      = some [("ZWL", 0)] ∧ ¬ (0 : ℚ) > 0 := by
  with_unfolding_all decide

/-- Claim C6, amended: for every successful call, the returned snapshot
is non-empty; the code performs no positivity check on rate values, so
values need not be greater than 0. -/
theorem fetch_exchange_rates_success_nonempty (p : SnapshotPage) :
    fetch_exchange_rates p ≠ some [] :=
  fetch_exchange_rates_ne_some_nil p

/-- Claim C7, counterexample. The claim asserts a failed launch caches
nothing, so a later call retries. With launch outcomes that fail on
attempt 0 and would succeed on attempt 1, the second call still returns
`None` and performs no further launch attempt (the counter stays at 1):
`st.cache_resource` cached the returned `None`. -/
theorem setup_driver_no_retry_counterexample :
    (setup_driver (fun i => if i = 0 then none else some 7)
        ((setup_driver (fun i => if i = 0 then none else some 7) ⟨none, 0⟩).2)).1 = none ∧
    ((setup_driver (fun i => if i = 0 then none else some 7)
        ((setup_driver (fun i => if i = 0 then none else some 7) ⟨none, 0⟩).2)).2).attempts = 1 ∧
    (fun i : ℕ => if i = 0 then (none : Option ℕ) else some 7) 1 = some 7 := by
  exact ⟨rfl, rfl, rfl⟩

/-- Claim C7, amended: if the browser launch fails, `setup_driver`
returns the failure value `None`, and that `None` is itself cached by
`st.cache_resource`: a subsequent call in the same process returns the
cached failure unchanged instead of attempting the launch again. -/
theorem setup_driver_failure_is_cached (env : ℕ → Option ℕ) (s s1 : SessionState)
    (h : setup_driver env s = (none, s1)) :
    setup_driver env s1 = (none, s1) := by
  unfold setup_driver at h ⊢
  cases hc : s.cacheSlot with
  | some r =>
    rw [hc] at h
    injection h with h1 h2
    subst h2
    rw [hc, h1]
  | none =>
    rw [hc] at h
    injection h with h1 h2
    subst h2
    simp [h1]

/-- Claim C7 (amended), witness: with launches that always fail, the
state after one failed call maps to itself with result `None`. -/
theorem setup_driver_failure_is_cached_witness :
    setup_driver (fun _ => (none : Option ℕ)) ⟨some none, 1⟩ = (none, ⟨some none, 1⟩) :=
  setup_driver_failure_is_cached (fun _ => (none : Option ℕ)) ⟨none, 0⟩ ⟨some none, 1⟩ rfl

/-- Claim C8: once a call to `setup_driver` has returned a driver handle,
a second call returns the very same handle and leaves the session state —
including the launch-attempt counter — unchanged: no second browser
process is ever launched. -/
theorem setup_driver_idempotent (env : ℕ → Option ℕ) (s s1 : SessionState) (d : ℕ)
    (h : setup_driver env s = (some d, s1)) :
    setup_driver env s1 = (some d, s1) := by
  unfold setup_driver at h ⊢
  cases hc : s.cacheSlot with
  | some r =>
    rw [hc] at h
    injection h with h1 h2
    subst h2
    rw [hc, h1]
  | none =>
    rw [hc] at h
    injection h with h1 h2
    subst h2
    simp [h1]

/-- Claim C8, witness: after a successful launch returning handle 5, the
second call returns handle 5 with the state unchanged. -/
theorem setup_driver_idempotent_witness :
    setup_driver (fun _ => some 5) ⟨some (some 5), 1⟩ = (some 5, ⟨some (some 5), 1⟩) :=
  setup_driver_idempotent (fun _ => some 5) ⟨none, 0⟩ ⟨some (some 5), 1⟩ 5 rfl

/-- Claim C9: for a fixed page state, `fetch_historical_rates` returns
equal results for any two values of the `currency_code` parameter — the
extractor never reads it. -/
theorem fetch_historical_rates_currency_code_noninterference
    (p : HistPage) (c1 c2 : String) :
    fetch_historical_rates p c1 = fetch_historical_rates p c2 := rfl

/-- Claim C10: on every snapshot page, whenever the call succeeds with
mapping `m`, the rate recorded in `m` for a currency code `c` is the rate
of the last row that parsed with code `c` (later duplicates overwrite
earlier ones); concretely, a page with two valid "GBP" rows yields a
one-entry mapping although it has two valid rows. -/
theorem fetch_exchange_rates_last_duplicate_wins :
    (∀ (rs : List RateRow) (c : String),
      (fetch_exchange_rates (SnapshotPage.rows rs)).elim True
        (fun m => dictLookup m c = lastEntryRate rs c)) ∧
    (fetch_exchange_rates (SnapshotPage.rows
        [⟨some "GBP", some (some "1.0")⟩, ⟨some "GBP", some (some "2.0")⟩])).map List.length
      = some 1 ∧
    (([⟨some "GBP", some (some "1.0")⟩, ⟨some "GBP", some (some "2.0")⟩] :
        List RateRow).filterMap rowEntry).length = 2 := by
  refine ⟨?_, by decide, by decide⟩
  intro rs c
  cases rs with
  | nil => exact trivial
  | cons r t =>
    have hne : (r :: t : List RateRow) ≠ [] := List.cons_ne_nil r t
    simp only [fetch_exchange_rates, fetch_exchange_rates_body, if_neg hne]
    cases hpr : processRows [] (r :: t) with
    | error e => cases e <;> exact trivial
    | ok m =>
      by_cases hm : m = []
      · simp [hm]
      · simp only [if_neg hm, Option.elim]
        have hl := processRows_lookup (r :: t) [] m hpr c
        simpa [lastEntryRate, dictLookup] using hl

end CurrencyScraper
